import Mathlib

/-!
# Posts resource of the social API

A shallow embedding of `src/controllers/postscontroller.js` and of the
`POST /` handler of `src/routes/postsRoute.js`.

The database is an in-memory record of three collections.  Every handler is a
function from the collections and the request to a response and the
collections afterwards.  A driver call that throws is an `Except.error`; the
`try`/`catch` of each handler is the `match` on that result.  Driver calls
throw only where a throw is modelled (schema validation in `Post.create`, a
rejected `skip` value); network failures and malformed identifiers are not
part of the model.
-/

namespace SocialApi

/-- A database identifier in its string form (`ObjectId.toString()`), which is
also the form of `req.user.id` and `req.params.id`. -/
abbrev ObjectId := String

/-- Modelled from the spec: the user document (models/User is absent):
identity, hashed password, administrator flag, profile fields. -/
structure User where
  _id : ObjectId
  password : String
  isAdmin : Bool
  profile : String
deriving DecidableEq, Repr

/-- A user document as serialised by `populate("user", ["-password"])`. -/
structure PublicUser where
  _id : ObjectId
  isAdmin : Bool
  profile : String
deriving DecidableEq, Repr

/-- Modelled from the spec: the comment document (models/Comment is absent):
identity, text, references to its post and author. -/
structure Comment where
  _id : ObjectId
  postId : ObjectId
  user : ObjectId
  text : String
deriving DecidableEq, Repr

/-- Modelled from the spec: the post document (models/Post is absent):
identity, title, description, optional category, owner, liking users,
creation and update timestamps. -/
structure Post where
  _id : ObjectId
  title : String
  description : String
  category : Option String
  user : ObjectId
  likes : List ObjectId
  createdAt : Nat
  updatedAt : Nat
deriving DecidableEq, Repr

/-- A post with its relations populated: `user` is the owner's document
without the password (`none` is JSON `null`, no such user), `comments` is
`none` when the comments were not populated. -/
structure PopulatedPost where
  doc : Post
  user : Option PublicUser
  comments : Option (List Comment)
deriving DecidableEq, Repr

/-- The three collections. -/
structure Db where
  posts : List Post
  users : List User
  comments : List Comment
deriving DecidableEq, Repr

/-- The identity attached to the request by the token middleware (`req.user`). -/
structure ReqUser where
  id : ObjectId
  isAdmin : Bool
deriving DecidableEq, Repr

/-- The fields of `req.body` that the handlers read; `none` is `undefined`. -/
structure ReqBody where
  title : Option String
  description : Option String
  category : Option String
  user : Option String
deriving DecidableEq, Repr

/-- The fields of `req.query` read by `getAllPostsCtrl`; `none` is `undefined`. -/
structure ReqQuery where
  pageNumber : Option String
  category : Option String
deriving DecidableEq, Repr

/-- The JSON payloads the handlers send. -/
inductive Json where
  | null
  | message (message : String)
  | messageError (message : String) (error : String)
  | created (message : String) (post : Post)
  | posts (posts : List PopulatedPost)
  | populated (post : PopulatedPost)
  | post (post : Post)
  | count (count : Nat)
  | deleted (message : String) (postId : ObjectId)
deriving DecidableEq, Repr

/-- The result of `res.status(status).json(json)`. -/
structure Response where
  status : Nat
  json : Json
deriving DecidableEq, Repr

/-! ## Validators -/

/-- Title bound of the data model: 3 to 200 characters. -/
def titleOk (s : String) : Bool := 3 ≤ s.length && s.length ≤ 200

/-- Description bound of the data model: 10 to 50000 characters. -/
def descriptionOk (s : String) : Bool := 10 ≤ s.length && s.length ≤ 50000

/-- Modelled from the spec: `validateCreatePost` (models/Post is absent):
title and description present and within their length bounds, category
optional.  The result is `error.details[0].message` of the first failing
field, `none` when the payload is accepted. -/
def validateCreatePost (body : ReqBody) : Option String :=
  match body.title with
  | none => some "title is required"
  | some t =>
    if !titleOk t then some "title length is out of bounds"
    else
      match body.description with
      | none => some "description is required"
      | some d =>
        if !descriptionOk d then some "description length is out of bounds"
        else none

/-- Modelled from the spec: `validateUpdatePost` (models/Post is absent): the
same fields, each optional but validated when present. -/
def validateUpdatePost (body : ReqBody) : Option String :=
  match body.title with
  | some t =>
    if !titleOk t then some "title length is out of bounds"
    else
      match body.description with
      | some d => if !descriptionOk d then some "description length is out of bounds" else none
      | none => none
  | none =>
    match body.description with
    | some d => if !descriptionOk d then some "description length is out of bounds" else none
    | none => none

/-! ## The Post model on the in-memory collection -/

/-- The argument of `Post.create`: each field may be `undefined`. -/
structure NewPost where
  title : Option String
  description : Option String
  category : Option String
  user : Option String
deriving DecidableEq, Repr

/-- Modelled from the spec: `Post.create` of the absent Post model.  The schema
requires a title and a description within bounds and an owner; a document that
violates it makes the call throw.  Otherwise the document is appended to the
collection with the generated identity `newId`, no likes, and both timestamps
set to `now`. -/
def Post.create (db : Db) (doc : NewPost) (newId : ObjectId) (now : Nat) :
    Except String (Post × Db) :=
  match doc.title, doc.description, doc.user with
  | some t, some d, some u =>
    if titleOk t && descriptionOk d then
      let post : Post :=
        { _id := newId, title := t, description := d, category := doc.category,
          user := u, likes := [], createdAt := now, updatedAt := now }
      .ok (post, { db with posts := db.posts ++ [post] })
    else .error "Post validation failed"
  | _, _, _ => .error "Post validation failed"

/-- The call `Post.findById(id)`: the first document with that identity, `none` is `null`. -/
def Post.findById (db : Db) (id : ObjectId) : Option Post :=
  db.posts.find? (fun p => p._id == id)

/-- The call `Post.countDocuments()`. -/
def Post.countDocuments (db : Db) : Nat := db.posts.length

/-- Removal of the first document with the given identity. -/
def removeFirst (id : ObjectId) : List Post → List Post
  | [] => []
  | p :: ps => if p._id == id then ps else p :: removeFirst id ps

/-- The call `Post.findByIdAndDelete(id)`. -/
def Post.findByIdAndDelete (db : Db) (id : ObjectId) : Db :=
  { db with posts := removeFirst id db.posts }

/-- The update documents the handlers pass to `findByIdAndUpdate`. -/
inductive Update where
  | set (title : Option String) (description : Option String) (category : Option String)
  | pull (likes : ObjectId)
  | push (likes : ObjectId)
deriving DecidableEq, Repr

/-- The effect of an update document on one post.  `$set` skips a key whose
value is `undefined` (Mongoose 6 and later strip such keys), `$pull` removes
every element equal to the value, `$push` appends it; the update timestamp is
refreshed. -/
def Update.apply (u : Update) (now : Nat) (p : Post) : Post :=
  match u with
  | .set title description category =>
    { p with
      title := title.getD p.title
      description := description.getD p.description
      category := match category with
        | some c => some c
        | none => p.category
      updatedAt := now }
  | .pull v => { p with likes := p.likes.filter (fun x => x != v), updatedAt := now }
  | .push v => { p with likes := p.likes ++ [v], updatedAt := now }

/-- Replacement of the first document with the given identity by its image. -/
def updateFirst (id : ObjectId) (f : Post → Post) : List Post → List Post
  | [] => []
  | p :: ps => if p._id == id then f p :: ps else p :: updateFirst id f ps

/-- The call `Post.findByIdAndUpdate(id, update, { new: true })`: the updated document
(`none` when no document has that identity) and the collections afterwards. -/
def Post.findByIdAndUpdate (db : Db) (id : ObjectId) (u : Update) (now : Nat) :
    Option Post × Db :=
  match Post.findById db id with
  | none => (none, db)
  | some p => (some (u.apply now p), { db with posts := updateFirst id (u.apply now) db.posts })

/-- The user document without its password. -/
def User.withoutPassword (u : User) : PublicUser :=
  { _id := u._id, isAdmin := u.isAdmin, profile := u.profile }

/-- The effect of `.populate("user", ["-password"])` on one post. -/
def populateUser (db : Db) (p : Post) : PopulatedPost :=
  { doc := p
    user := (db.users.find? (fun u => u._id == p.user)).map User.withoutPassword
    comments := none }

/-- Modelled from the spec: `.populate("comments")`, the virtual relation of the
absent Post model: the comments that reference the post. -/
def populateComments (db : Db) (p : PopulatedPost) : PopulatedPost :=
  { p with comments := some (db.comments.filter (fun c => c.postId == p.doc._id)) }

/-- The order of `.sort({ createdAt: -1 })`: newest first, ties in collection order. -/
def sortNewestFirst (ps : List Post) : List Post :=
  ps.insertionSort (fun a b => b.createdAt ≤ a.createdAt)

/-- A `Post.find(...)` query under construction.  `skip` holds the value given
to `.skip(...)`: `some none` is `NaN`. -/
structure Query where
  category : Option String
  skip : Option (Option Int)
  limit : Option Nat
  sortCreatedAtDesc : Bool
  populateOwner : Bool

/-- The calls `Post.find()` and `Post.find({ category })`. -/
def Post.find (category : Option String) : Query :=
  { category := category, skip := none, limit := none, sortCreatedAtDesc := false,
    populateOwner := false }

/-- The builder call `.skip(n)`. -/
def Query.withSkip (q : Query) (n : Option Int) : Query := { q with skip := some n }

/-- The builder call `.limit(n)`. -/
def Query.withLimit (q : Query) (n : Nat) : Query := { q with limit := some n }

/-- The builder call `.sort({ createdAt: -1 })`. -/
def Query.sortNewest (q : Query) : Query := { q with sortCreatedAtDesc := true }

/-- The builder call `.populate("user", ["-password"])`. -/
def Query.populate (q : Query) : Query := { q with populateOwner := true }

/-- Execution of a query (`await`).  Whatever the order of the builder calls,
the database filters, then sorts, then skips, then limits; the owners are
populated last.  A `skip` value that is not a non-negative integer is
rejected and the call throws. -/
def Query.exec (q : Query) (db : Db) : Except String (List PopulatedPost) :=
  let matched := match q.category with
    | some c => db.posts.filter (fun p => p.category == some c)
    | none => db.posts
  let sorted := if q.sortCreatedAtDesc then sortNewestFirst matched else matched
  let skipped : Except String (List Post) := match q.skip with
    | none => .ok sorted
    | some none => .error "skip value is not a number"
    | some (some n) => if n < 0 then .error "skip value must be non-negative" else .ok (sorted.drop n.toNat)
  match skipped with
  | .error e => .error e
  | .ok ps =>
    let limited := match q.limit with
      | some n => ps.take n
      | none => ps
    .ok (limited.map (fun p =>
      if q.populateOwner then populateUser db p
      else { doc := p, user := none, comments := none }))

/-! ## JavaScript coercions -/

/-- The truthiness of an optional string: `undefined` and `""` are falsy. -/
def truthy : Option String → Bool
  | none => false
  | some s => s != ""

/-- The value of a string of decimal digits, `none` when a character is not a
digit. -/
def decimalValue : List Char → Nat → Option Nat
  | [], acc => some acc
  | c :: cs, acc => if c.isDigit then decimalValue cs (acc * 10 + (c.toNat - 48)) else none

/-- The integer fragment of the numeric coercion of a string (`pageNumber - 1`
coerces `pageNumber`): the empty string is 0, an optionally signed run of
decimal digits is its value.  `none` is `NaN`; strings outside the fragment
(padding, fractions, exponents, other radixes) are not modelled and also give
`none`.  Numbers are exact integers: the rounding of values beyond `2^53` is
not modelled. -/
def toNumber (s : String) : Option Int :=
  match s.toList with
  | [] => some 0
  | '-' :: c :: cs => (decimalValue (c :: cs) 0).map (fun n => - (n : Int))
  | '+' :: c :: cs => (decimalValue (c :: cs) 0).map (fun n => (n : Int))
  | cs => (decimalValue cs 0).map (fun n => (n : Int))

/-! ## Handlers -/

/-- The handler of `router.post('/')` in `src/routes/postsRoute.js`, after
`verifyToken` has attached `req.user`. -/
def createPostRoute (db : Db) (user : ReqUser) (body : ReqBody) (newId : ObjectId)
    (now : Nat) : Response × Db :=
  match validateCreatePost body with
  | some msg => (⟨400, .message msg⟩, db)
  | none =>
    match Post.create db
        { title := body.title, description := body.description, category := body.category,
          user := some user.id } newId now with
    | .ok (post, db') => (⟨201, .created "Post created successfully" post⟩, db')
    | .error _ => (⟨500, .message "Failed to create post, please try again."⟩, db)

/-- The controller `createPostCtrl`.  It has no `try`/`catch`: a throw of
`Post.create` reaches the global error handler of `src/app.js`. -/
def createPostCtrl (db : Db) (_user : ReqUser) (body : ReqBody) (newId : ObjectId)
    (now : Nat) : Response × Db :=
  match validateCreatePost body with
  | some msg => (⟨400, .message msg⟩, db)
  | none =>
    match Post.create db
        { title := body.title, description := body.description, category := body.category,
          user := body.user } newId now with
    | .ok (post, db') => (⟨201, .created "Post created successfully" post⟩, db')
    | .error _ => (⟨500, .message "Something went wrong on the server."⟩, db)

/-- The constant `POST_PER_PAGE`. -/
def POST_PER_PAGE : Nat := 3

/-- The controller `getAllPostsCtrl`. -/
def getAllPostsCtrl (db : Db) (query : ReqQuery) : Response × Db :=
  let posts : Except String (List PopulatedPost) :=
    if truthy query.pageNumber then
      ((((Post.find none).withSkip
        (((query.pageNumber.bind toNumber).map (fun n => (n - 1) * (POST_PER_PAGE : Int))))).withLimit
        POST_PER_PAGE).sortNewest.populate).exec db
    else if truthy query.category then
      ((Post.find query.category).sortNewest.populate).exec db
    else
      ((Post.find none).sortNewest.populate).exec db
  match posts with
  | .ok ps => (⟨200, .posts ps⟩, db)
  | .error e => (⟨500, .messageError "Error fetching posts" e⟩, db)

/-- The controller `getSinglePostCtrl`. -/
def getSinglePostCtrl (db : Db) (id : ObjectId) : Response × Db :=
  match Post.findById db id with
  | none => (⟨404, .message "Post not found"⟩, db)
  | some post => (⟨200, .populated (populateComments db (populateUser db post))⟩, db)

/-- The controller `getPostCountCtrl`. -/
def getPostCountCtrl (db : Db) : Response × Db :=
  (⟨200, .count (Post.countDocuments db)⟩, db)

/-- The controller `deletePostCtrl`. -/
def deletePostCtrl (db : Db) (user : ReqUser) (id : ObjectId) : Response × Db :=
  match Post.findById db id with
  | none => (⟨404, .message "Post not found"⟩, db)
  | some post =>
    if user.isAdmin || user.id == post.user then
      (⟨200, .deleted "Post has been deleted successfully" post._id⟩,
        Post.findByIdAndDelete db id)
    else
      (⟨403, .message "Access denied, forbidden"⟩, db)

/-- The controller `updatePostCtrl`. -/
def updatePostCtrl (db : Db) (user : ReqUser) (id : ObjectId) (body : ReqBody)
    (now : Nat) : Response × Db :=
  match validateUpdatePost body with
  | some msg => (⟨400, .message msg⟩, db)
  | none =>
    match Post.findById db id with
    | none => (⟨404, .message "Post not found"⟩, db)
    | some post =>
      if user.id != post.user then
        (⟨403, .message "Access denied, you are not allowed"⟩, db)
      else
        match Post.findByIdAndUpdate db id (.set body.title body.description body.category) now with
        | (some updatedPost, db') =>
          (⟨200, .populated (populateComments db' (populateUser db' updatedPost))⟩, db')
        | (none, db') => (⟨200, .null⟩, db')

/-- The controller `toggleLikeCtrl`. -/
def toggleLikeCtrl (db : Db) (user : ReqUser) (postId : ObjectId) (now : Nat) :
    Response × Db :=
  let loggedInUser := user.id
  match Post.findById db postId with
  | none => (⟨404, .message "Post not found"⟩, db)
  | some post =>
    let isPostAlreadyLiked := post.likes.find? (fun u => u == loggedInUser)
    let updated :=
      if isPostAlreadyLiked.isSome then
        Post.findByIdAndUpdate db postId (.pull loggedInUser) now
      else
        Post.findByIdAndUpdate db postId (.push loggedInUser) now
    match updated with
    | (some p, db') => (⟨200, .post p⟩, db')
    | (none, db') => (⟨200, .null⟩, db')

/-- One `toggleLikeCtrl` request: the caller, the post and the time of the call. -/
structure ToggleCall where
  user : ReqUser
  postId : ObjectId
  now : Nat
deriving DecidableEq, Repr

/-- The collections after a sequence of `toggleLikeCtrl` requests handled one
after the other. -/
def runToggles (db : Db) : List ToggleCall → Db
  | [] => db
  | c :: cs => runToggles (toggleLikeCtrl db c.user c.postId c.now).2 cs

/-! ## Auxiliary definitions for the statements -/

/-- The post after one toggle by `u`: unliked when `u` is among the likes,
liked otherwise. -/
def toggledBy (u : ObjectId) (now : Nat) (p : Post) : Post :=
  if u ∈ p.likes then (Update.pull u).apply now p else (Update.push u).apply now p

/-- Five posts of three owners, in the order of their insertion. -/
def samplePosts : List Post :=
  [⟨"p1", "First", "Description one", some "tech", "u1", [], 10, 10⟩,
   ⟨"p2", "Second", "Description two", some "news", "u2", [], 50, 50⟩,
   ⟨"p3", "Third", "Description three", some "tech", "u1", [], 30, 30⟩,
   ⟨"p4", "Fourth", "Description four", none, "u3", [], 40, 40⟩,
   ⟨"p5", "Fifth", "Description five", some "news", "u2", [], 20, 20⟩]

/-- A database holding `samplePosts` and one of their owners. -/
def sampleDb : Db := ⟨samplePosts, [⟨"u1", "hash", false, "Una"⟩], []⟩

/-! ## Facts about the collection operations -/

theorem find_cons_hit {id : ObjectId} (a : Post) (as : List Post) (ha : a._id = id) :
    List.find? (fun p => p._id == id) (a :: as) = some a := by
  simp [List.find?_cons, ha]

theorem find_cons_miss {id : ObjectId} (a : Post) (as : List Post) (ha : a._id ≠ id) :
    List.find? (fun p => p._id == id) (a :: as) = List.find? (fun p => p._id == id) as := by
  have hb : (a._id == id) = false := by simpa using ha
  simp [List.find?_cons, hb]

theorem find_some_split {id : ObjectId} {ps : List Post} {P : Post}
    (h : ps.find? (fun p => p._id == id) = some P) :
    P._id = id ∧ ∃ pre post, ps = pre ++ P :: post ∧ ∀ q ∈ pre, q._id ≠ id := by
  induction ps with
  | nil => simp at h
  | cons a as ih =>
    by_cases ha : a._id = id
    · rw [find_cons_hit a as ha] at h
      have hP : a = P := by simpa using h
      subst hP
      exact ⟨ha, [], as, rfl, by simp⟩
    · rw [find_cons_miss a as ha] at h
      obtain ⟨hid, pre, post, hsplit, hpre⟩ := ih h
      refine ⟨hid, a :: pre, post, by simp [hsplit], ?_⟩
      intro q hq
      rcases List.mem_cons.mp hq with rfl | hq
      · exact ha
      · exact hpre q hq

theorem find_split {id : ObjectId} {pre post : List Post} {P : Post}
    (hP : P._id = id) (hpre : ∀ q ∈ pre, q._id ≠ id) :
    (pre ++ P :: post).find? (fun p => p._id == id) = some P := by
  induction pre with
  | nil => exact find_cons_hit P post hP
  | cons a as ih =>
    have ha : a._id ≠ id := hpre a (by simp)
    rw [List.cons_append, find_cons_miss a _ ha]
    exact ih (fun q hq => hpre q (by simp [hq]))

theorem find_none_of_absent {id : ObjectId} {ps : List Post}
    (h : ∀ p ∈ ps, p._id ≠ id) : ps.find? (fun p => p._id == id) = none := by
  induction ps with
  | nil => rfl
  | cons a as ih =>
    have ha : a._id ≠ id := h a (by simp)
    rw [find_cons_miss a as ha]
    exact ih (fun q hq => h q (by simp [hq]))

theorem updateFirst_split {id : ObjectId} (f : Post → Post) {pre post : List Post} {P : Post}
    (hP : P._id = id) (hpre : ∀ q ∈ pre, q._id ≠ id) :
    updateFirst id f (pre ++ P :: post) = pre ++ f P :: post := by
  induction pre with
  | nil => simp [updateFirst, hP]
  | cons a as ih =>
    have ha : a._id ≠ id := hpre a (by simp)
    have := ih (fun q hq => hpre q (by simp [hq]))
    simpa [updateFirst, ha] using this

theorem removeFirst_split {id : ObjectId} {pre post : List Post} {P : Post}
    (hP : P._id = id) (hpre : ∀ q ∈ pre, q._id ≠ id) :
    removeFirst id (pre ++ P :: post) = pre ++ post := by
  induction pre with
  | nil => simp [removeFirst, hP]
  | cons a as ih =>
    have ha : a._id ≠ id := hpre a (by simp)
    have := ih (fun q hq => hpre q (by simp [hq]))
    simpa [removeFirst, ha] using this

theorem validateCreatePost_accepts {body : ReqBody} (h : validateCreatePost body = none) :
    ∃ t d, body.title = some t ∧ body.description = some d ∧
      titleOk t = true ∧ descriptionOk d = true := by
  unfold validateCreatePost at h
  cases ht : body.title with
  | none => simp [ht] at h
  | some t =>
    cases hd : body.description with
    | none =>
      simp only [ht, hd] at h
      split at h <;> simp at h
    | some d =>
      simp only [ht, hd] at h
      by_cases h1 : titleOk t = true
      · by_cases h2 : descriptionOk d = true
        · exact ⟨t, d, rfl, rfl, h1, h2⟩
        · simp [h1, h2] at h
      · simp [h1] at h

/-! ## Creation -/

/-- C1: for every authenticated caller and every body accepted by
`validateCreatePost`, the `POST /` route handler answers 201 with the message
"Post created successfully" and a post owned by the caller (`req.user.id`),
whatever `user` value the body carries; the collections afterwards are the
collections before with that one post appended. -/
theorem createPostRoute_owner_is_caller (db : Db) (user : ReqUser) (body : ReqBody)
    (newId : ObjectId) (now : Nat) (h : validateCreatePost body = none) :
    ∃ post : Post,
      createPostRoute db user body newId now =
        (⟨201, .created "Post created successfully" post⟩,
          { db with posts := db.posts ++ [post] }) ∧
      post.user = user.id ∧
      body.title = some post.title ∧ body.description = some post.description ∧
      post.category = body.category ∧ post.likes = [] ∧ post._id = newId ∧
      ∀ claimed : Option String,
        createPostRoute db user { body with user := claimed } newId now =
          createPostRoute db user body newId now := by
  obtain ⟨t, d, ht, hd, h1, h2⟩ := validateCreatePost_accepts h
  refine ⟨{ _id := newId, title := t, description := d, category := body.category,
            user := user.id, likes := [], createdAt := now, updatedAt := now }, ?_, rfl, ht, hd,
          rfl, rfl, rfl, ?_⟩
  · simp [createPostRoute, h, Post.create, ht, hd, h1, h2]
  · intro claimed
    simp [createPostRoute, validateCreatePost]

theorem createPostRoute_owner_is_caller_witness :
    validateCreatePost
        ⟨some "Hello", some "A sufficiently long description here", none, some "mallory"⟩ = none ∧
    ∃ post : Post,
      createPostRoute ⟨[], [], []⟩ ⟨"u1", false⟩
          ⟨some "Hello", some "A sufficiently long description here", none, some "mallory"⟩
          "p1" 10 =
        (⟨201, .created "Post created successfully" post⟩,
          { (⟨[], [], []⟩ : Db) with posts := ([] : List Post) ++ [post] }) ∧
      post.user = "u1" :=
  ⟨by decide,
    (createPostRoute_owner_is_caller ⟨[], [], []⟩ ⟨"u1", false⟩
      ⟨some "Hello", some "A sufficiently long description here", none, some "mallory"⟩
      "p1" 10 (by decide)).imp (fun _ hp => ⟨hp.1, hp.2.1⟩)⟩

/-- C2: evaluation of `createPostCtrl` where the claim fails.  The caller is
`u1`; the body names `mallory` (respectively `eve`) as `user`.  The post that is
stored and returned is owned by `mallory` (respectively `eve`), not by the
caller; and a body without `user` is answered 500 with nothing stored. -/
theorem createPostCtrl_owner_from_body :
    createPostCtrl ⟨[], [], []⟩ ⟨"u1", false⟩
        ⟨some "Hello", some "A sufficiently long description here", none, some "mallory"⟩
        "p1" 10 =
      (⟨201, .created "Post created successfully"
          ⟨"p1", "Hello", "A sufficiently long description here", none, "mallory", [], 10, 10⟩⟩,
        ⟨[⟨"p1", "Hello", "A sufficiently long description here", none, "mallory", [], 10, 10⟩],
          [], []⟩) ∧
    createPostCtrl ⟨[], [], []⟩ ⟨"u1", false⟩
        ⟨some "Hello", some "A sufficiently long description here", none, some "eve"⟩
        "p1" 10 =
      (⟨201, .created "Post created successfully"
          ⟨"p1", "Hello", "A sufficiently long description here", none, "eve", [], 10, 10⟩⟩,
        ⟨[⟨"p1", "Hello", "A sufficiently long description here", none, "eve", [], 10, 10⟩],
          [], []⟩) ∧
    createPostCtrl ⟨[], [], []⟩ ⟨"u1", false⟩
        ⟨some "Hello", some "A sufficiently long description here", none, none⟩
        "p1" 10 =
      (⟨500, .message "Something went wrong on the server."⟩, ⟨[], [], []⟩) := by
  decide

/-! ## Likes -/

theorem findByIdAndUpdate_split {db : Db} {id : ObjectId} {pre post : List Post} {P : Post}
    (u : Update) (now : Nat) (hP : P._id = id) (hpre : ∀ q ∈ pre, q._id ≠ id)
    (hdb : db.posts = pre ++ P :: post) :
    Post.findByIdAndUpdate db id u now =
      (some (u.apply now P), { db with posts := pre ++ u.apply now P :: post }) := by
  have hf : Post.findById db id = some P := by
    unfold Post.findById
    rw [hdb]
    exact find_split hP hpre
  unfold Post.findByIdAndUpdate
  rw [hf]
  simp only [hdb, updateFirst_split (u.apply now) hP hpre]

theorem toggleLikeCtrl_split {db : Db} {id : ObjectId} {pre post : List Post} {P : Post}
    (user : ReqUser) (now : Nat) (hP : P._id = id) (hpre : ∀ q ∈ pre, q._id ≠ id)
    (hdb : db.posts = pre ++ P :: post) :
    toggleLikeCtrl db user id now =
      (⟨200, .post (toggledBy user.id now P)⟩,
        { db with posts := pre ++ toggledBy user.id now P :: post }) := by
  have hf : Post.findById db id = some P := by
    unfold Post.findById
    rw [hdb]
    exact find_split hP hpre
  unfold toggleLikeCtrl toggledBy
  simp only [hf]
  by_cases hm : user.id ∈ P.likes
  · have hs : (P.likes.find? (fun u => u == user.id)).isSome = true := by
      rw [List.find?_isSome]
      exact ⟨user.id, hm, by simp⟩
    simp only [hs, if_true, hm, findByIdAndUpdate_split (.pull user.id) now hP hpre hdb]
  · have hs : (P.likes.find? (fun u => u == user.id)).isSome = false := by
      rw [Bool.eq_false_iff]
      intro hc
      rw [List.find?_isSome] at hc
      obtain ⟨x, hx, hxe⟩ := hc
      have : x = user.id := by simpa using hxe
      exact hm (this ▸ hx)
    simp only [hs, hm, if_false, findByIdAndUpdate_split (.push user.id) now hP hpre hdb]
    simp

theorem toggledBy_id (u : ObjectId) (now : Nat) (p : Post) : (toggledBy u now p)._id = p._id := by
  unfold toggledBy
  split <;> rfl

theorem toggledBy_likes_nodup (u : ObjectId) (now : Nat) (p : Post) (h : p.likes.Nodup) :
    (toggledBy u now p).likes.Nodup := by
  unfold toggledBy
  split
  · exact h.filter _
  · rename_i hm
    have := List.Nodup.concat hm h
    simpa [Update.apply, List.concat_eq_append] using this

theorem mem_toggledBy_likes (u : ObjectId) (now : Nat) (p : Post) (x : ObjectId) :
    x ∈ (toggledBy u now p).likes ↔
      (u ∈ p.likes ∧ x ∈ p.likes ∧ x ≠ u) ∨ (u ∉ p.likes ∧ (x ∈ p.likes ∨ x = u)) := by
  unfold toggledBy
  split
  · rename_i hm
    simp [Update.apply, hm]
  · rename_i hm
    simp [Update.apply, hm]

theorem toggleLikeCtrl_keeps_nodup (db : Db) (user : ReqUser) (id : ObjectId) (now : Nat)
    (h : ∀ p ∈ db.posts, p.likes.Nodup) :
    ∀ p ∈ (toggleLikeCtrl db user id now).2.posts, p.likes.Nodup := by
  cases hf : Post.findById db id with
  | none =>
    have : toggleLikeCtrl db user id now = (⟨404, .message "Post not found"⟩, db) := by
      simp [toggleLikeCtrl, hf]
    rw [this]
    exact h
  | some P =>
    obtain ⟨hP, pre, post, hdb, hpre⟩ := find_some_split hf
    rw [toggleLikeCtrl_split user now hP hpre hdb]
    intro p hp
    simp only [List.mem_append, List.mem_cons] at hp
    rcases hp with hp | rfl | hp
    · exact h p (by rw [hdb]; simp [hp])
    · exact toggledBy_likes_nodup _ _ _ (h P (by rw [hdb]; simp))
    · exact h p (by rw [hdb]; simp [hp])

/-- C3: for an existing post `P` and a user, two `toggleLikeCtrl` calls in a row
by that user both answer 200; the first flips the user's membership in the
likes, and after the second the user is among the likes iff it was before the
first, the likes have the same members as the original likes (they are the
same list when the user was not among them), and the post is otherwise the
post `P` with a refreshed update time. -/
theorem toggleLikeCtrl_twice_restores (db : Db) (user : ReqUser) (id : ObjectId)
    (now1 now2 : Nat) (P : Post) (h : Post.findById db id = some P) :
    ∃ P1 P2 : Post,
      (toggleLikeCtrl db user id now1).1 = ⟨200, .post P1⟩ ∧
      Post.findById (toggleLikeCtrl db user id now1).2 id = some P1 ∧
      (user.id ∈ P1.likes ↔ user.id ∉ P.likes) ∧
      (toggleLikeCtrl (toggleLikeCtrl db user id now1).2 user id now2).1 = ⟨200, .post P2⟩ ∧
      Post.findById (toggleLikeCtrl (toggleLikeCtrl db user id now1).2 user id now2).2 id =
        some P2 ∧
      (user.id ∈ P2.likes ↔ user.id ∈ P.likes) ∧
      (∀ x, x ∈ P2.likes ↔ x ∈ P.likes) ∧
      (user.id ∉ P.likes → P2.likes = P.likes) ∧
      P2 = { P with likes := P2.likes, updatedAt := now2 } := by
  obtain ⟨hP, pre, post, hdb, hpre⟩ := find_some_split h
  have h1 := toggleLikeCtrl_split user now1 hP hpre hdb
  have hP1 : (toggledBy user.id now1 P)._id = id := by rw [toggledBy_id]; exact hP
  have hdb1 : (toggleLikeCtrl db user id now1).2.posts
      = pre ++ toggledBy user.id now1 P :: post := by rw [h1]
  have h2 := toggleLikeCtrl_split user now2 hP1 hpre hdb1
  have hP2 : (toggledBy user.id now2 (toggledBy user.id now1 P))._id = id := by
    rw [toggledBy_id]; exact hP1
  refine ⟨toggledBy user.id now1 P, toggledBy user.id now2 (toggledBy user.id now1 P),
    by rw [h1], ?_, ?_, by rw [h2], ?_, ?_, ?_, ?_, ?_⟩
  · unfold Post.findById
    rw [hdb1]
    exact find_split hP1 hpre
  · rw [mem_toggledBy_likes]
    by_cases hm : user.id ∈ P.likes <;> simp [hm]
  · unfold Post.findById
    rw [h2]
    exact find_split hP2 hpre
  · rw [mem_toggledBy_likes, mem_toggledBy_likes]
    by_cases hm : user.id ∈ P.likes <;> simp [hm]
  · intro x
    rw [mem_toggledBy_likes, mem_toggledBy_likes, mem_toggledBy_likes]
    by_cases hm : user.id ∈ P.likes
    · by_cases hx : x = user.id
      · subst hx
        simp [hm]
      · simp [hm, hx]
    · by_cases hx : x = user.id
      · subst hx
        simp [hm]
      · simp [hm, hx]
  · intro hm
    have hf : ∀ l : List ObjectId, user.id ∉ l → l.filter (fun x => x != user.id) = l := by
      intro l hl
      rw [List.filter_eq_self]
      intro a ha
      have : a ≠ user.id := fun e => hl (e ▸ ha)
      simpa using this
    simp [toggledBy, Update.apply, hm, hf P.likes hm]
  · by_cases hm : user.id ∈ P.likes <;> simp [toggledBy, Update.apply, hm]

theorem toggleLikeCtrl_twice_restores_witness :
    Post.findById ⟨[⟨"p1", "Hello", "A sufficiently long description here", none, "u1", [], 10, 10⟩],
        [], []⟩ "p1" =
      some ⟨"p1", "Hello", "A sufficiently long description here", none, "u1", [], 10, 10⟩ ∧
    (toggleLikeCtrl
        ⟨[⟨"p1", "Hello", "A sufficiently long description here", none, "u1", [], 10, 10⟩],
          [], []⟩ ⟨"v", false⟩ "p1" 11).1 =
      ⟨200, .post ⟨"p1", "Hello", "A sufficiently long description here", none, "u1", ["v"], 10, 11⟩⟩ ∧
    (toggleLikeCtrl
        (toggleLikeCtrl
          ⟨[⟨"p1", "Hello", "A sufficiently long description here", none, "u1", [], 10, 10⟩],
            [], []⟩ ⟨"v", false⟩ "p1" 11).2 ⟨"v", false⟩ "p1" 12).1 =
      ⟨200, .post ⟨"p1", "Hello", "A sufficiently long description here", none, "u1", [], 10, 12⟩⟩ ∧
    ∃ P1 P2 : Post,
      (toggleLikeCtrl
        ⟨[⟨"p1", "Hello", "A sufficiently long description here", none, "u1", [], 10, 10⟩],
          [], []⟩ ⟨"v", false⟩ "p1" 11).1 = ⟨200, .post P1⟩ ∧
      (∀ x, x ∈ P2.likes ↔ x ∈ ([] : List ObjectId)) :=
  ⟨by decide, by decide, by decide,
    (toggleLikeCtrl_twice_restores
      ⟨[⟨"p1", "Hello", "A sufficiently long description here", none, "u1", [], 10, 10⟩], [], []⟩
      ⟨"v", false⟩ "p1" 11 12
      ⟨"p1", "Hello", "A sufficiently long description here", none, "u1", [], 10, 10⟩
      (by decide)).imp
      (fun _ h1 => h1.imp (fun _ h2 => ⟨h2.1, h2.2.2.2.2.2.2.1⟩))⟩

/-- C4: uniqueness of the likes is an invariant of `toggleLikeCtrl`: when every
post of the collection lists each liking user at most once, so does every post
after any finite sequence of `toggleLikeCtrl` calls, by arbitrary users on
arbitrary posts, handled one after the other. -/
theorem toggleLikeCtrl_likes_nodup_invariant (db : Db) (calls : List ToggleCall)
    (h : ∀ p ∈ db.posts, p.likes.Nodup) :
    ∀ p ∈ (runToggles db calls).posts, p.likes.Nodup := by
  induction calls generalizing db with
  | nil => exact h
  | cons c cs ih =>
    exact ih _ (toggleLikeCtrl_keeps_nodup db c.user c.postId c.now h)

theorem toggleLikeCtrl_likes_nodup_invariant_witness :
    (∀ p ∈ (createPostRoute ⟨[], [], []⟩ ⟨"u1", false⟩
        ⟨some "Hello", some "A sufficiently long description here", none, none⟩
        "p1" 10).2.posts, p.likes.Nodup) ∧
    ∀ p ∈ (runToggles
        (createPostRoute ⟨[], [], []⟩ ⟨"u1", false⟩
          ⟨some "Hello", some "A sufficiently long description here", none, none⟩
          "p1" 10).2
        [⟨⟨"v", false⟩, "p1", 11⟩, ⟨⟨"w", false⟩, "p1", 12⟩, ⟨⟨"v", false⟩, "p1", 13⟩,
          ⟨⟨"v", false⟩, "p1", 14⟩]).posts, p.likes.Nodup :=
  ⟨by decide,
    toggleLikeCtrl_likes_nodup_invariant _
      [⟨⟨"v", false⟩, "p1", 11⟩, ⟨⟨"w", false⟩, "p1", 12⟩, ⟨⟨"v", false⟩, "p1", 13⟩,
        ⟨⟨"v", false⟩, "p1", 14⟩] (by decide)⟩

/-! ## Update and delete -/

theorem updatePostCtrl_not_owner {db : Db} {id : ObjectId} {P : Post} (user : ReqUser)
    {body : ReqBody} (now : Nat) (hv : validateUpdatePost body = none)
    (hf : Post.findById db id = some P) (hne : user.id ≠ P.user) :
    updatePostCtrl db user id body now =
      (⟨403, .message "Access denied, you are not allowed"⟩, db) := by
  simp [updatePostCtrl, hv, hf, hne]

theorem updatePostCtrl_owner {db : Db} {id : ObjectId} {pre post : List Post} {P : Post}
    (user : ReqUser) {body : ReqBody} (now : Nat) (hv : validateUpdatePost body = none)
    (hP : P._id = id) (hpre : ∀ q ∈ pre, q._id ≠ id) (hdb : db.posts = pre ++ P :: post)
    (ho : user.id = P.user) :
    updatePostCtrl db user id body now =
      (⟨200, .populated
          (populateComments
            { db with posts :=
              pre ++ (Update.set body.title body.description body.category).apply now P :: post }
            (populateUser
              { db with posts :=
                pre ++ (Update.set body.title body.description body.category).apply now P :: post }
              ((Update.set body.title body.description body.category).apply now P)))⟩,
        { db with posts :=
          pre ++ (Update.set body.title body.description body.category).apply now P :: post }) := by
  have hf : Post.findById db id = some P := by
    unfold Post.findById
    rw [hdb]
    exact find_split hP hpre
  unfold updatePostCtrl
  simp only [hv, hf]
  rw [findByIdAndUpdate_split _ now hP hpre hdb]
  simp [ho]

/-- C5: for an existing post and a payload accepted by `validateUpdatePost`,
`updatePostCtrl` answers 403 "Access denied, you are not allowed" and leaves the
collections as they were exactly when the caller's id differs from the post's
owner, and answers 200 exactly when the caller is the owner; the caller's
administrator flag has no influence on the outcome. -/
theorem updatePostCtrl_forbidden_iff_not_owner (db : Db) (user : ReqUser) (id : ObjectId)
    (body : ReqBody) (now : Nat) (P : Post) (hv : validateUpdatePost body = none)
    (hf : Post.findById db id = some P) :
    (((updatePostCtrl db user id body now).1 =
          ⟨403, .message "Access denied, you are not allowed"⟩ ∧
        (updatePostCtrl db user id body now).2 = db) ↔ user.id ≠ P.user) ∧
    ((updatePostCtrl db user id body now).1.status = 403 ↔ user.id ≠ P.user) ∧
    ((updatePostCtrl db user id body now).1.status = 200 ↔ user.id = P.user) ∧
    ∀ flag : Bool,
      updatePostCtrl db ⟨user.id, flag⟩ id body now = updatePostCtrl db user id body now := by
  obtain ⟨hP, pre, post, hdb, hpre⟩ := find_some_split hf
  by_cases ho : user.id = P.user
  · have h200 := updatePostCtrl_owner user now hv hP hpre hdb ho
    refine ⟨?_, ?_, ?_, ?_⟩
    · rw [h200]; simp [ho]
    · rw [h200]; simp [ho]
    · rw [h200]; simp [ho]
    · intro flag
      rw [h200]
      exact updatePostCtrl_owner ⟨user.id, flag⟩ now hv hP hpre hdb ho
  · have h403 := updatePostCtrl_not_owner user now hv hf ho
    refine ⟨?_, ?_, ?_, ?_⟩
    · rw [h403]; simp [ho]
    · rw [h403]; simp [ho]
    · rw [h403]; simp [ho]
    · intro flag
      rw [h403]
      exact updatePostCtrl_not_owner ⟨user.id, flag⟩ now hv hf ho

theorem updatePostCtrl_forbidden_iff_not_owner_witness :
    validateUpdatePost ⟨some "Edited", none, none, none⟩ = none ∧
    (updatePostCtrl
        ⟨[⟨"p1", "Hello", "A sufficiently long description here", none, "u1", [], 10, 10⟩],
          [], []⟩ ⟨"admin", true⟩ "p1" ⟨some "Edited", none, none, none⟩ 11).1.status = 403 ∧
    (updatePostCtrl
        ⟨[⟨"p1", "Hello", "A sufficiently long description here", none, "u1", [], 10, 10⟩],
          [], []⟩ ⟨"u1", false⟩ "p1" ⟨some "Edited", none, none, none⟩ 11).1.status = 200 :=
  ⟨by decide,
    ((updatePostCtrl_forbidden_iff_not_owner
      ⟨[⟨"p1", "Hello", "A sufficiently long description here", none, "u1", [], 10, 10⟩], [], []⟩
      ⟨"admin", true⟩ "p1" ⟨some "Edited", none, none, none⟩ 11
      ⟨"p1", "Hello", "A sufficiently long description here", none, "u1", [], 10, 10⟩
      (by decide) (by decide)).2.1).mpr (by decide),
    by decide⟩

/-- C6: for an existing post `P`, `deletePostCtrl` answers 200 with the
confirmation message and `postId` equal to `P`'s id, and removes `P` and nothing
else from the collections, exactly when the caller is an administrator or the
caller's id is `P`'s owner; otherwise it answers 403 and the collections are
unchanged. -/
theorem deletePostCtrl_admin_or_owner (db : Db) (user : ReqUser) (id : ObjectId) (P : Post)
    (hf : Post.findById db id = some P) :
    ∃ pre post : List Post,
      db.posts = pre ++ P :: post ∧ (∀ q ∈ pre, q._id ≠ id) ∧ P._id = id ∧
      ((user.isAdmin = true ∨ user.id = P.user) →
        deletePostCtrl db user id =
          (⟨200, .deleted "Post has been deleted successfully" P._id⟩,
            { db with posts := pre ++ post })) ∧
      (¬ (user.isAdmin = true ∨ user.id = P.user) →
        deletePostCtrl db user id = (⟨403, .message "Access denied, forbidden"⟩, db)) ∧
      ((deletePostCtrl db user id).1.status = 200 ↔ (user.isAdmin = true ∨ user.id = P.user)) := by
  obtain ⟨hP, pre, post, hdb, hpre⟩ := find_some_split hf
  have hyes : (user.isAdmin = true ∨ user.id = P.user) →
      deletePostCtrl db user id =
        (⟨200, .deleted "Post has been deleted successfully" P._id⟩,
          { db with posts := pre ++ post }) := by
    intro h
    have hc : (user.isAdmin || user.id == P.user) = true := by
      rcases h with h | h <;> simp [h]
    unfold deletePostCtrl
    simp only [hf, hc, if_true, Post.findByIdAndDelete]
    rw [hdb, removeFirst_split hP hpre]
  have hno : ¬ (user.isAdmin = true ∨ user.id = P.user) →
      deletePostCtrl db user id = (⟨403, .message "Access denied, forbidden"⟩, db) := by
    intro h
    have hc : (user.isAdmin || user.id == P.user) = false := by
      rw [Bool.eq_false_iff]
      intro hc
      apply h
      simpa using hc
    unfold deletePostCtrl
    simp [hf, hc]
  refine ⟨pre, post, hdb, hpre, hP, hyes, hno, ?_⟩
  by_cases h : user.isAdmin = true ∨ user.id = P.user
  · rw [hyes h]; simp [h]
  · rw [hno h]; simp [h]

theorem deletePostCtrl_admin_or_owner_witness :
    Post.findById
        ⟨[⟨"p1", "Hello", "A sufficiently long description here", none, "u1", [], 10, 10⟩],
          [], []⟩ "p1" =
      some ⟨"p1", "Hello", "A sufficiently long description here", none, "u1", [], 10, 10⟩ ∧
    deletePostCtrl
        ⟨[⟨"p1", "Hello", "A sufficiently long description here", none, "u1", [], 10, 10⟩],
          [], []⟩ ⟨"admin", true⟩ "p1" =
      (⟨200, .deleted "Post has been deleted successfully" "p1"⟩, ⟨[], [], []⟩) ∧
    ((deletePostCtrl
        ⟨[⟨"p1", "Hello", "A sufficiently long description here", none, "u1", [], 10, 10⟩],
          [], []⟩ ⟨"v", false⟩ "p1").1.status = 200 ↔
      (false = true ∨ "v" = "u1")) :=
  ⟨by decide, by decide,
    (deletePostCtrl_admin_or_owner
      ⟨[⟨"p1", "Hello", "A sufficiently long description here", none, "u1", [], 10, 10⟩], [], []⟩
      ⟨"v", false⟩ "p1"
      ⟨"p1", "Hello", "A sufficiently long description here", none, "u1", [], 10, 10⟩
      (by decide)).elim
      (fun _ h1 => h1.elim (fun _ h2 => h2.2.2.2.2.2))⟩

/-- C8: when no post of the collection has the addressed id, each of
`getSinglePostCtrl`, `deletePostCtrl`, `toggleLikeCtrl`, and `updatePostCtrl`
with a payload accepted by `validateUpdatePost`, answers 404 "Post not found"
for every caller and leaves the collections unchanged. -/
theorem missing_post_not_found (db : Db) (id : ObjectId) (h : ∀ p ∈ db.posts, p._id ≠ id) :
    getSinglePostCtrl db id = (⟨404, .message "Post not found"⟩, db) ∧
    (∀ user : ReqUser,
      deletePostCtrl db user id = (⟨404, .message "Post not found"⟩, db)) ∧
    (∀ (user : ReqUser) (now : Nat),
      toggleLikeCtrl db user id now = (⟨404, .message "Post not found"⟩, db)) ∧
    (∀ (user : ReqUser) (body : ReqBody) (now : Nat), validateUpdatePost body = none →
      updatePostCtrl db user id body now = (⟨404, .message "Post not found"⟩, db)) := by
  have hf : Post.findById db id = none := find_none_of_absent h
  refine ⟨?_, ?_, ?_, ?_⟩
  · simp [getSinglePostCtrl, hf]
  · intro user
    simp [deletePostCtrl, hf]
  · intro user now
    simp [toggleLikeCtrl, hf]
  · intro user body now hv
    simp [updatePostCtrl, hv, hf]

theorem missing_post_not_found_witness :
    getSinglePostCtrl
        ⟨[⟨"p1", "Hello", "A sufficiently long description here", none, "u1", [], 10, 10⟩],
          [], []⟩ "p2" =
      (⟨404, .message "Post not found"⟩,
        ⟨[⟨"p1", "Hello", "A sufficiently long description here", none, "u1", [], 10, 10⟩],
          [], []⟩) :=
  (missing_post_not_found
    ⟨[⟨"p1", "Hello", "A sufficiently long description here", none, "u1", [], 10, 10⟩], [], []⟩
    "p2" (by decide)).1

/-- C9: a `updatePostCtrl` call answered 200 replaces the addressed post `P` by a
post `Q` at the same place of the collection and changes nothing else: every
other post, the users and the comments are as before; `Q` has `P`'s identity,
owner, likes and creation time; and each of title, description and category
takes the payload's value when the payload has one and keeps `P`'s value when
it has none.  The response carries `Q` with owner and comments populated. -/
theorem updatePostCtrl_success_frame (db : Db) (user : ReqUser) (id : ObjectId)
    (body : ReqBody) (now : Nat) (h : (updatePostCtrl db user id body now).1.status = 200) :
    ∃ (P Q : Post) (pre post : List Post),
      Post.findById db id = some P ∧
      db.posts = pre ++ P :: post ∧ (∀ q ∈ pre, q._id ≠ id) ∧
      (updatePostCtrl db user id body now).2 = { db with posts := pre ++ Q :: post } ∧
      (updatePostCtrl db user id body now).1.json =
        .populated (populateComments (updatePostCtrl db user id body now).2
          (populateUser (updatePostCtrl db user id body now).2 Q)) ∧
      Q._id = P._id ∧ Q.user = P.user ∧ Q.likes = P.likes ∧ Q.createdAt = P.createdAt ∧
      (∀ t, body.title = some t → Q.title = t) ∧ (body.title = none → Q.title = P.title) ∧
      (∀ d, body.description = some d → Q.description = d) ∧
      (body.description = none → Q.description = P.description) ∧
      (∀ c, body.category = some c → Q.category = some c) ∧
      (body.category = none → Q.category = P.category) := by
  cases hv : validateUpdatePost body with
  | some msg => simp [updatePostCtrl, hv] at h
  | none =>
    cases hf : Post.findById db id with
    | none => simp [updatePostCtrl, hv, hf] at h
    | some P =>
      by_cases ho : user.id = P.user
      · obtain ⟨hP, pre, post, hdb, hpre⟩ := find_some_split hf
        have h200 := updatePostCtrl_owner user now hv hP hpre hdb ho
        refine ⟨P, (Update.set body.title body.description body.category).apply now P,
          pre, post, rfl, hdb, hpre, by rw [h200], by rw [h200], rfl, rfl, rfl, rfl,
          ?_, ?_, ?_, ?_, ?_, ?_⟩
        · intro t ht; simp [Update.apply, ht]
        · intro ht; simp [Update.apply, ht]
        · intro d hd; simp [Update.apply, hd]
        · intro hd; simp [Update.apply, hd]
        · intro c hc; simp [Update.apply, hc]
        · intro hc; simp [Update.apply, hc]
      · rw [updatePostCtrl_not_owner user now hv hf ho] at h
        simp at h

theorem updatePostCtrl_success_frame_witness :
    (updatePostCtrl
        ⟨[⟨"p0", "First", "Another long description", some "news", "u2", ["u1"], 5, 5⟩,
          ⟨"p1", "Hello", "A sufficiently long description here", some "tech", "u1", ["v"], 10, 10⟩],
          [], []⟩ ⟨"u1", false⟩ "p1" ⟨some "Edited", none, none, some "mallory"⟩ 11).1.status = 200 ∧
    (updatePostCtrl
        ⟨[⟨"p0", "First", "Another long description", some "news", "u2", ["u1"], 5, 5⟩,
          ⟨"p1", "Hello", "A sufficiently long description here", some "tech", "u1", ["v"], 10, 10⟩],
          [], []⟩ ⟨"u1", false⟩ "p1" ⟨some "Edited", none, none, some "mallory"⟩ 11).2 =
      ⟨[⟨"p0", "First", "Another long description", some "news", "u2", ["u1"], 5, 5⟩,
        ⟨"p1", "Edited", "A sufficiently long description here", some "tech", "u1", ["v"], 10, 11⟩],
        [], []⟩ ∧
    ∃ (P Q : Post) (pre post : List Post),
      Post.findById
        ⟨[⟨"p0", "First", "Another long description", some "news", "u2", ["u1"], 5, 5⟩,
          ⟨"p1", "Hello", "A sufficiently long description here", some "tech", "u1", ["v"], 10, 10⟩],
          [], []⟩ "p1" = some P ∧
      Q.user = P.user ∧ pre.length + post.length = 1 :=
  ⟨by decide, by decide,
    (updatePostCtrl_success_frame
      ⟨[⟨"p0", "First", "Another long description", some "news", "u2", ["u1"], 5, 5⟩,
        ⟨"p1", "Hello", "A sufficiently long description here", some "tech", "u1", ["v"], 10, 10⟩],
        [], []⟩ ⟨"u1", false⟩ "p1" ⟨some "Edited", none, none, some "mallory"⟩ 11
      (by decide)).imp
      (fun _ h1 => h1.imp (fun _ h2 => h2.imp (fun _ h3 => h3.imp (fun _ h4 =>
        ⟨h4.1, h4.2.2.2.2.2.2.1, by
          have := congrArg List.length h4.2.1
          simp at this
          omega⟩))))⟩

/-! ## Listing -/

theorem sortNewestFirst_perm (ps : List Post) : (sortNewestFirst ps).Perm ps :=
  List.perm_insertionSort _ ps

theorem sortNewestFirst_sorted (ps : List Post) :
    (sortNewestFirst ps).Sorted (fun a b => b.createdAt ≤ a.createdAt) := by
  haveI : IsTotal Post (fun a b => b.createdAt ≤ a.createdAt) :=
    ⟨fun a b => Nat.le_total b.createdAt a.createdAt⟩
  haveI : IsTrans Post (fun a b => b.createdAt ≤ a.createdAt) :=
    ⟨fun _ _ _ hab hbc => Nat.le_trans hbc hab⟩
  exact List.sorted_insertionSort _ ps

theorem toNumber_empty : toNumber "" = some 0 := by decide

theorem pagedListing_eq (db : Db) (s : String) (category : Option String) (p : Nat)
    (hs : toNumber s = some (p : Int)) (hp : 1 ≤ p) :
    getAllPostsCtrl db ⟨some s, category⟩ =
      (⟨200, .posts ((((sortNewestFirst db.posts).drop ((p - 1) * 3)).take 3).map
        (populateUser db))⟩, db) := by
  have hne : s ≠ "" := by
    intro he
    rw [he, toNumber_empty] at hs
    have : (0 : Int) = (p : Int) := Option.some.inj hs
    omega
  have hskip : ((p : Int) - 1) * ((3 : Nat) : Int) = (((p - 1) * 3 : Nat) : Int) := by
    push_cast [hp]
    ring
  have hnn : ¬ ((((p - 1) * 3 : Nat) : Int) < 0) := by omega
  simp only [getAllPostsCtrl, truthy, bne_iff_ne, ne_eq, hne, not_false_eq_true, decide_True,
    if_true, Option.bind, hs, Option.map, Query.exec, Post.find, Query.withSkip,
    Query.withLimit, Query.sortNewest, Query.populate, POST_PER_PAGE]
  rw [hskip]
  simp only [hnn, if_false, Int.toNat_ofNat]

/-- C7: for every page number `p ≥ 1` (the numeric value of the `pageNumber`
string) and every content of the collection, `getAllPostsCtrl` answers 200 with
the posts at positions `(p-1)*3` to `(p-1)*3+2` (as many as exist) of the list
of all posts ordered newest first by `createdAt`, owners populated: the first
`(p-1)*3` newest posts are skipped, at most 3 posts are returned, newest first.
The ordered list is a rearrangement of the collection in non-increasing
`createdAt` order. -/
theorem getAllPostsCtrl_page (db : Db) (s : String) (category : Option String) (p : Nat)
    (hs : toNumber s = some (p : Int)) (hp : 1 ≤ p) :
    getAllPostsCtrl db ⟨some s, category⟩ =
      (⟨200, .posts ((((sortNewestFirst db.posts).drop ((p - 1) * 3)).take 3).map
        (populateUser db))⟩, db) ∧
    (sortNewestFirst db.posts).Perm db.posts ∧
    (sortNewestFirst db.posts).Sorted (fun a b => b.createdAt ≤ a.createdAt) ∧
    (((sortNewestFirst db.posts).drop ((p - 1) * 3)).take 3).length ≤ 3 ∧
    (((sortNewestFirst db.posts).drop ((p - 1) * 3)).take 3).Sorted
      (fun a b => b.createdAt ≤ a.createdAt) := by
  refine ⟨pagedListing_eq db s category p hs hp, sortNewestFirst_perm _,
    sortNewestFirst_sorted _, ?_, ?_⟩
  · simp only [List.length_take]
    omega
  · exact ((sortNewestFirst_sorted db.posts).sublist (List.drop_sublist _ _)).sublist
      (List.take_sublist _ _)

theorem getAllPostsCtrl_page_witness :
    toNumber "2" = some ((2 : Nat) : Int) ∧ 1 ≤ 2 ∧
    getAllPostsCtrl sampleDb ⟨some "2", none⟩ =
      (⟨200, .posts ((((sortNewestFirst sampleDb.posts).drop ((2 - 1) * 3)).take 3).map
        (populateUser sampleDb))⟩, sampleDb) ∧
    sortNewestFirst sampleDb.posts =
      [⟨"p2", "Second", "Description two", some "news", "u2", [], 50, 50⟩,
       ⟨"p4", "Fourth", "Description four", none, "u3", [], 40, 40⟩,
       ⟨"p3", "Third", "Description three", some "tech", "u1", [], 30, 30⟩,
       ⟨"p5", "Fifth", "Description five", some "news", "u2", [], 20, 20⟩,
       ⟨"p1", "First", "Description one", some "tech", "u1", [], 10, 10⟩] ∧
    getAllPostsCtrl sampleDb ⟨some "2", none⟩ =
      (⟨200, .posts
        [⟨⟨"p5", "Fifth", "Description five", some "news", "u2", [], 20, 20⟩, none, none⟩,
         ⟨⟨"p1", "First", "Description one", some "tech", "u1", [], 10, 10⟩,
           some ⟨"u1", false, "Una"⟩, none⟩]⟩, sampleDb) :=
  ⟨by decide, by decide,
    (getAllPostsCtrl_page sampleDb "2" none 2 (by decide) (by decide)).1,
    by decide, by decide⟩

/-- C10, the claim as stated fails: a `pageNumber` that is present but empty
does not select the paged mode, so the category given with it changes the
result; and a category that is present but empty, with no `pageNumber`, does
not filter: all posts are returned although none has the category `""`. -/
theorem getAllPostsCtrl_present_empty_parameters :
    (ReqQuery.mk (some "") (some "tech")).pageNumber.isSome = true ∧
    getAllPostsCtrl sampleDb ⟨some "", some "tech"⟩ =
      (⟨200, .posts
        [⟨⟨"p3", "Third", "Description three", some "tech", "u1", [], 30, 30⟩,
           some ⟨"u1", false, "Una"⟩, none⟩,
         ⟨⟨"p1", "First", "Description one", some "tech", "u1", [], 10, 10⟩,
           some ⟨"u1", false, "Una"⟩, none⟩]⟩, sampleDb) ∧
    getAllPostsCtrl sampleDb ⟨some "", some "tech"⟩ ≠
      getAllPostsCtrl sampleDb ⟨some "", some "news"⟩ ∧
    getAllPostsCtrl sampleDb ⟨some "", some "tech"⟩ ≠ getAllPostsCtrl sampleDb ⟨some "", none⟩ ∧
    (ReqQuery.mk none (some "")).category.isSome = true ∧
    sampleDb.posts.filter (fun p => p.category == some "") = [] ∧
    getAllPostsCtrl sampleDb ⟨none, some ""⟩ =
      (⟨200, .posts ((sortNewestFirst sampleDb.posts).map (populateUser sampleDb))⟩, sampleDb) ∧
    (sortNewestFirst sampleDb.posts).length = 5 := by
  decide

/-- C10, amended: the list mode of `getAllPostsCtrl` is selected by the
parameters that are present and non-empty, page number first.  With a non-empty
`pageNumber` the result is the paged result, the same whatever category is also
given.  With `pageNumber` absent or empty and a non-empty category the result
is exactly the posts whose category equals it, newest first.  With both absent
or empty the result is all posts, newest first. -/
theorem getAllPostsCtrl_modes (db : Db) :
    (∀ (s : String) (category : Option String), s ≠ "" →
      getAllPostsCtrl db ⟨some s, category⟩ = getAllPostsCtrl db ⟨some s, none⟩ ∧
      ∀ p : Nat, toNumber s = some (p : Int) → 1 ≤ p →
        getAllPostsCtrl db ⟨some s, category⟩ =
          (⟨200, .posts ((((sortNewestFirst db.posts).drop ((p - 1) * 3)).take 3).map
            (populateUser db))⟩, db)) ∧
    (∀ (pageNumber : Option String) (c : String), truthy pageNumber = false → c ≠ "" →
      getAllPostsCtrl db ⟨pageNumber, some c⟩ =
        (⟨200, .posts ((sortNewestFirst (db.posts.filter (fun p => p.category == some c))).map
          (populateUser db))⟩, db)) ∧
    (∀ pageNumber category : Option String, truthy pageNumber = false →
      truthy category = false →
      getAllPostsCtrl db ⟨pageNumber, category⟩ =
        (⟨200, .posts ((sortNewestFirst db.posts).map (populateUser db))⟩, db)) := by
  refine ⟨?_, ?_, ?_⟩
  · intro s category hne
    refine ⟨?_, fun p hs hp => pagedListing_eq db s category p hs hp⟩
    simp [getAllPostsCtrl, truthy, hne]
  · intro pageNumber c hpn hc
    have hc2 : truthy (some c) = true := by simp [truthy, hc]
    simp [getAllPostsCtrl, hpn, hc2, Query.exec, Post.find, Query.sortNewest, Query.populate]
  · intro pageNumber category hpn hc
    simp [getAllPostsCtrl, hpn, hc, Query.exec, Post.find, Query.sortNewest, Query.populate]

theorem getAllPostsCtrl_modes_witness :
    ("1" ≠ "" ∧ getAllPostsCtrl sampleDb ⟨some "1", some "tech"⟩ =
      getAllPostsCtrl sampleDb ⟨some "1", none⟩) ∧
    (truthy (some "") = false ∧ "tech" ≠ "" ∧
      getAllPostsCtrl sampleDb ⟨some "", some "tech"⟩ =
        (⟨200, .posts ((sortNewestFirst
          (sampleDb.posts.filter (fun p => p.category == some "tech"))).map
          (populateUser sampleDb))⟩, sampleDb)) ∧
    (truthy none = false ∧ truthy (some "") = false ∧
      getAllPostsCtrl sampleDb ⟨none, some ""⟩ =
        (⟨200, .posts ((sortNewestFirst sampleDb.posts).map (populateUser sampleDb))⟩,
          sampleDb)) :=
  ⟨⟨by decide, ((getAllPostsCtrl_modes sampleDb).1 "1" (some "tech") (by decide)).1⟩,
    ⟨by decide, by decide,
      (getAllPostsCtrl_modes sampleDb).2.1 (some "") "tech" (by decide) (by decide)⟩,
    ⟨by decide, by decide,
      (getAllPostsCtrl_modes sampleDb).2.2 none (some "") (by decide) (by decide)⟩⟩

end SocialApi
